import Mathlib

/-!
# Book catalog service of `grpc-workshop`

A shallow embedding of the two `server.go` programs of the repository
(`step-1-list-books` and `step-3-get-and-delete-books`) and the properties of
their four remote operations `List`, `Insert`, `Get` and `Delete`.

Modelling decisions.

* The package-level variable `booksList` is the only mutable state.  It is kept
  in a `Store`, and every handler is a function from the store before the call
  to the pair of its Go return value and the store after the call.
* A Go return pair `(value, error)` with exactly one side `nil` is an
  `Except status.Status value`.
* A slice `[]*Book` is the list of the books it points to.  The slice
  expressions `booksList[:i]`, `booksList[i+1:]` and `append` are taken at the
  level of the values they denote (`take`, `drop`, `++`); both slice
  expressions are in range because the loop guard `i < len(booksList)` holds
  where they are evaluated.  The handlers are run one after another
  (no overlapping calls).
* The `for i := 0; i < len(booksList); i++` loops are recursive functions on
  the loop counter `i`, which re-read `booksList` from the store at every
  iteration, as the Go code does.
-/

namespace GrpcWorkshop

/-! ## Messages of the generated `books` package -/

/-- Modelled from the spec: the generated protobuf package `books` is not part
of the sources; `Book` is the record with the three fields the composite
literal of `booksList` sets (`Id`, `Title`, `Author`), an integer identifier
and two texts. -/
structure Book where
  Id : Int
  Title : String
  Author : String
deriving DecidableEq

/-- Modelled from the spec: the generated message `BookList{books: []Book}`. -/
structure BookList where
  Books : List Book
deriving DecidableEq

/-- Modelled from the spec: the generated message `BookIdRequest{id}`. -/
structure BookIdRequest where
  Id : Int
deriving DecidableEq

/-- Modelled from the spec: the generated message `Empty`, without fields. -/
structure Empty where
deriving DecidableEq

/-! ## The part of `google.golang.org/grpc` the handlers use -/

/-- The canonical status codes of `google.golang.org/grpc/codes`. -/
inductive codes.Code where
  | OK
  | Canceled
  | Unknown
  | InvalidArgument
  | DeadlineExceeded
  | NotFound
  | AlreadyExists
  | PermissionDenied
  | ResourceExhausted
  | FailedPrecondition
  | Aborted
  | OutOfRange
  | Unimplemented
  | Internal
  | Unavailable
  | DataLoss
  | Unauthenticated
deriving DecidableEq

/-- An error built by the `status` package: a code and a message. -/
structure status.Status where
  code : codes.Code
  message : String
deriving DecidableEq

/-- The call `status.Errorf(c, format)` with no further arguments: the format
string has no verbs in the sources, so it is the message. -/
def status.Errorf (c : codes.Code) (format : String) : status.Status :=
  { code := c, message := format }

/-! ## The state -/

/-- The mutable state of a server process: the package-level `booksList`. -/
structure Store where
  booksList : List Book
deriving DecidableEq

/-- A handler: from the store before the call to the Go result and the store
after the call. -/
abbrev Handler (α : Type) : Type := Store → Except status.Status α × Store

/-! ## `step-1-list-books/server.go` -/

namespace Step1

/-- The initialiser of the package-level variable `booksList`. -/
def booksList : List Book :=
  [{ Id := 123, Title := "A Tale of Two Cities", Author := "Charles Dickens" }]

/-- The store of a freshly started process. -/
def initial : Store := { booksList := booksList }

/-- The handler `func (s *service) List`. -/
def service.List : Handler BookList := fun s =>
  (.ok { Books := s.booksList }, s)

end Step1

/-! ## `step-3-get-and-delete-books/server.go` -/

namespace Step3

/-- The initialiser of the package-level variable `booksList`. -/
def booksList : List Book :=
  [{ Id := 123, Title := "A Tale of Two Cities", Author := "Charles Dickens" }]

/-- The store of a freshly started process. -/
def initial : Store := { booksList := booksList }

/-- The handler `func (s *service) List`. -/
def service.List : Handler BookList := fun s =>
  (.ok { Books := s.booksList }, s)

/-- The handler `func (s *service) Insert`:
`booksList = append(booksList, book)`. -/
def service.Insert (book : Book) : Handler Empty := fun s =>
  (.ok {}, { s with booksList := s.booksList ++ [book] })

/-- The loop of `Get` from the value `i` of its counter on, with the
`return nil, status.Errorf(codes.NotFound, "Not found")` that follows it. -/
def service.Get.loop (req : BookIdRequest) (i : Nat) (s : Store) :
    Except status.Status Book × Store :=
  if h : i < s.booksList.length then
    if (s.booksList.get ⟨i, h⟩).Id = req.Id then
      (.ok (s.booksList.get ⟨i, h⟩), s)
    else
      service.Get.loop req (i + 1) s
  else
    (.error (status.Errorf codes.Code.NotFound "Not found"), s)
termination_by s.booksList.length - i

/-- The handler `func (s *service) Get`. -/
def service.Get (req : BookIdRequest) : Handler Book := fun s =>
  service.Get.loop req 0 s

/-- The loop of `Delete` from the value `i` of its counter on, with the
`return nil, status.Errorf(codes.NotFound, "Not found")` that follows it.
On a match `booksList = append(booksList[:i], booksList[i+1:]...)`. -/
def service.Delete.loop (req : BookIdRequest) (i : Nat) (s : Store) :
    Except status.Status Empty × Store :=
  if h : i < s.booksList.length then
    if (s.booksList.get ⟨i, h⟩).Id = req.Id then
      (.ok {}, { s with booksList := s.booksList.take i ++ s.booksList.drop (i + 1) })
    else
      service.Delete.loop req (i + 1) s
  else
    (.error (status.Errorf codes.Code.NotFound "Not found"), s)
termination_by s.booksList.length - i

/-- The handler `func (s *service) Delete`. -/
def service.Delete (req : BookIdRequest) : Handler Empty := fun s =>
  service.Delete.loop req 0 s

/-! ### Sequences of calls -/

/-- A remote call with its request message. -/
inductive Call where
  | list
  | insert (book : Book)
  | get (req : BookIdRequest)
  | delete (req : BookIdRequest)
deriving DecidableEq

/-- The store after one call is served. -/
def step (s : Store) : Call → Store
  | .list => (service.List s).2
  | .insert book => (service.Insert book s).2
  | .get req => (service.Get req s).2
  | .delete req => (service.Delete req s).2

/-- The store after a sequence of calls is served, one after another. -/
def run (s : Store) (calls : List Call) : Store :=
  calls.foldl step s

/-- The error both `Get` and `Delete` return when no book matches. -/
def notFound : status.Status :=
  status.Errorf codes.Code.NotFound "Not found"


/-! ### Lemmas on the two loops -/

/-- A catalog that holds a book with the id splits at the first such book. -/
theorem exists_first_match (id : Int) (l : List Book) (h : ∃ b ∈ l, b.Id = id) :
    ∃ pre b post, l = pre ++ b :: post ∧ (∀ x ∈ pre, x.Id ≠ id) ∧ b.Id = id := by
  induction l with
  | nil => simp at h
  | cons a t ih =>
    by_cases ha : a.Id = id
    · exact ⟨[], a, t, rfl, by simp, ha⟩
    · have ht : ∃ b ∈ t, b.Id = id := by
        obtain ⟨b, hb, hbid⟩ := h
        rcases List.mem_cons.1 hb with rfl | hb
        · exact absurd hbid ha
        · exact ⟨b, hb, hbid⟩
      obtain ⟨pre, b, post, rfl, hpre, hb⟩ := ih ht
      refine ⟨a :: pre, b, post, rfl, ?_, hb⟩
      intro x hx
      rcases List.mem_cons.1 hx with rfl | hx
      · exact ha
      · exact hpre x hx

/-- The element at position `i` of `pre ++ b :: post`, for `i` inside `pre`. -/
theorem get_in_pre (pre post : List Book) (b : Book) (i : Nat) (hi : i < pre.length)
    (h : i < (pre ++ b :: post).length) :
    (pre ++ b :: post).get ⟨i, h⟩ ∈ pre := by
  rw [List.get_eq_getElem, List.getElem_append_left hi]
  exact List.getElem_mem hi

/-- The element at position `pre.length` of `pre ++ b :: post`. -/
theorem get_at_pre (pre post : List Book) (b : Book)
    (h : pre.length < (pre ++ b :: post).length) :
    (pre ++ b :: post).get ⟨pre.length, h⟩ = b := by
  rw [List.get_eq_getElem, List.getElem_append_right (Nat.le_refl _)]
  simp

/-- The loop of `Get`, started at or before the first match, returns it. -/
theorem Get_loop_found (req : BookIdRequest) (pre post : List Book) (b : Book)
    (hpre : ∀ x ∈ pre, x.Id ≠ req.Id) (hb : b.Id = req.Id) :
    ∀ (n i : Nat), pre.length - i = n → i ≤ pre.length →
      service.Get.loop req i ⟨pre ++ b :: post⟩ = (.ok b, ⟨pre ++ b :: post⟩) := by
  intro n
  induction n with
  | zero =>
    intro i hn hi
    have hi2 : i = pre.length := by omega
    subst hi2
    have hlt : pre.length < (pre ++ b :: post).length := by simp
    rw [service.Get.loop, dif_pos hlt, if_pos (by rw [get_at_pre]; exact hb), get_at_pre]
  | succ m ih =>
    intro i hn hi
    have hi2 : i < pre.length := by omega
    have hlt : i < (pre ++ b :: post).length := by simp; omega
    rw [service.Get.loop, dif_pos hlt, if_neg (hpre _ (get_in_pre pre post b i hi2 hlt))]
    exact ih (i + 1) (by omega) (by omega)

/-- The loop of `Get` on a catalog without the id ends in the NOT_FOUND
error, from every value of the counter. -/
theorem Get_loop_absent (req : BookIdRequest) (s : Store)
    (habs : ∀ x ∈ s.booksList, x.Id ≠ req.Id) :
    ∀ (n i : Nat), s.booksList.length - i = n →
      service.Get.loop req i s = (.error notFound, s) := by
  intro n
  induction n with
  | zero =>
    intro i hn
    have hge : ¬ i < s.booksList.length := by omega
    rw [service.Get.loop, dif_neg hge]
    rfl
  | succ m ih =>
    intro i hn
    have hlt : i < s.booksList.length := by omega
    rw [service.Get.loop, dif_pos hlt, if_neg (habs _ (List.get_mem _ _ _))]
    exact ih (i + 1) (by omega)

/-- The loop of `Delete`, started at or before the first match, removes it. -/
theorem Delete_loop_found (req : BookIdRequest) (pre post : List Book) (b : Book)
    (hpre : ∀ x ∈ pre, x.Id ≠ req.Id) (hb : b.Id = req.Id) :
    ∀ (n i : Nat), pre.length - i = n → i ≤ pre.length →
      service.Delete.loop req i ⟨pre ++ b :: post⟩ = (.ok {}, ⟨pre ++ post⟩) := by
  intro n
  induction n with
  | zero =>
    intro i hn hi
    have hi2 : i = pre.length := by omega
    subst hi2
    have hlt : pre.length < (pre ++ b :: post).length := by simp
    rw [service.Delete.loop, dif_pos hlt, if_pos (by rw [get_at_pre]; exact hb)]
    simp
  | succ m ih =>
    intro i hn hi
    have hi2 : i < pre.length := by omega
    have hlt : i < (pre ++ b :: post).length := by simp; omega
    rw [service.Delete.loop, dif_pos hlt, if_neg (hpre _ (get_in_pre pre post b i hi2 hlt))]
    exact ih (i + 1) (by omega) (by omega)

/-- The loop of `Delete` on a catalog without the id ends in the NOT_FOUND
error and leaves the store as it was, from every value of the counter. -/
theorem Delete_loop_absent (req : BookIdRequest) (s : Store)
    (habs : ∀ x ∈ s.booksList, x.Id ≠ req.Id) :
    ∀ (n i : Nat), s.booksList.length - i = n →
      service.Delete.loop req i s = (.error notFound, s) := by
  intro n
  induction n with
  | zero =>
    intro i hn
    have hge : ¬ i < s.booksList.length := by omega
    rw [service.Delete.loop, dif_neg hge]
    rfl
  | succ m ih =>
    intro i hn
    have hlt : i < s.booksList.length := by omega
    rw [service.Delete.loop, dif_pos hlt, if_neg (habs _ (List.get_mem _ _ _))]
    exact ih (i + 1) (by omega)

/-! ### The handlers in closed form -/

/-- The handler `Get` on a catalog split at the first book with the id. -/
theorem Get_found (req : BookIdRequest) (s : Store) (pre post : List Book) (b : Book)
    (hs : s.booksList = pre ++ b :: post) (hpre : ∀ x ∈ pre, x.Id ≠ req.Id)
    (hb : b.Id = req.Id) :
    service.Get req s = (.ok b, s) := by
  cases s with
  | mk l =>
    simp only at hs
    subst hs
    exact Get_loop_found req pre post b hpre hb pre.length 0 rfl (Nat.zero_le _)

/-- The handler `Get` on a catalog without the id. -/
theorem Get_absent (req : BookIdRequest) (s : Store)
    (habs : ∀ x ∈ s.booksList, x.Id ≠ req.Id) :
    service.Get req s = (.error notFound, s) :=
  Get_loop_absent req s habs s.booksList.length 0 rfl

/-- The handler `Delete` on a catalog split at the first book with the id. -/
theorem Delete_found (req : BookIdRequest) (s : Store) (pre post : List Book) (b : Book)
    (hs : s.booksList = pre ++ b :: post) (hpre : ∀ x ∈ pre, x.Id ≠ req.Id)
    (hb : b.Id = req.Id) :
    service.Delete req s = (.ok {}, ⟨pre ++ post⟩) := by
  cases s with
  | mk l =>
    simp only at hs
    subst hs
    exact Delete_loop_found req pre post b hpre hb pre.length 0 rfl (Nat.zero_le _)

/-- The handler `Delete` on a catalog without the id. -/
theorem Delete_absent (req : BookIdRequest) (s : Store)
    (habs : ∀ x ∈ s.booksList, x.Id ≠ req.Id) :
    service.Delete req s = (.error notFound, s) :=
  Delete_loop_absent req s habs s.booksList.length 0 rfl

/-- The handler `Get` never writes the store. -/
theorem Get_store (req : BookIdRequest) (s : Store) : (service.Get req s).2 = s := by
  by_cases h : ∃ b ∈ s.booksList, b.Id = req.Id
  · obtain ⟨pre, b, post, hs, hpre, hb⟩ := exists_first_match req.Id s.booksList h
    rw [Get_found req s pre post b hs hpre hb]
  · rw [Get_absent req s (fun x hx hid => h ⟨x, hx, hid⟩)]

/-- The handler `Get` fails with NOT_FOUND exactly on a catalog without the id. -/
theorem Get_notFound_iff (req : BookIdRequest) (s : Store) :
    (service.Get req s).1 = .error notFound ↔ ∀ x ∈ s.booksList, x.Id ≠ req.Id := by
  constructor
  · intro hget x hx hid
    obtain ⟨pre, b, post, hs, hpre, hb⟩ := exists_first_match req.Id s.booksList ⟨x, hx, hid⟩
    rw [Get_found req s pre post b hs hpre hb] at hget
    cases hget
  · intro habs
    rw [Get_absent req s habs]

/-- Every book of the store after `Delete` was in the store before it. -/
theorem Delete_subset (req : BookIdRequest) (s : Store) :
    ∀ x ∈ (service.Delete req s).2.booksList, x ∈ s.booksList := by
  intro x hx
  by_cases h : ∃ b ∈ s.booksList, b.Id = req.Id
  · obtain ⟨pre, b, post, hs, hpre, hb⟩ := exists_first_match req.Id s.booksList h
    rw [Delete_found req s pre post b hs hpre hb] at hx
    rw [hs]
    simp only [List.mem_append, List.mem_cons] at hx ⊢
    tauto
  · rw [Delete_absent req s (fun x hx hid => h ⟨x, hx, hid⟩)] at hx
    exact hx

/-- Every book of the store after a sequence of calls was in the store before
it or is the book of one of the `Insert` calls of the sequence. -/
theorem run_origin (calls : List Call) :
    ∀ (s : Store), ∀ x ∈ (run s calls).booksList,
      x ∈ s.booksList ∨ Call.insert x ∈ calls := by
  induction calls with
  | nil => intro s x hx; exact Or.inl hx
  | cons c cs ih =>
    intro s x hx
    have hrun : run s (c :: cs) = run (step s c) cs := rfl
    rw [hrun] at hx
    rcases ih (step s c) x hx with h | h
    · cases c with
      | list => exact Or.inl h
      | insert book =>
        have hmem : x ∈ s.booksList ++ [book] := h
        rcases List.mem_append.1 hmem with h1 | h1
        · exact Or.inl h1
        · have hxb : x = book := by simpa using h1
          subst hxb
          exact Or.inr (List.mem_cons_self _ _)
      | get req =>
        have hst : step s (Call.get req) = s := Get_store req s
        rw [hst] at h
        exact Or.inl h
      | delete req => exact Or.inl (Delete_subset req s x h)
    · exact Or.inr (List.mem_cons_of_mem _ h)

/-! ### Properties of the operations -/

/-- C1: `Get(id)` succeeds exactly when some book of the catalog has the id;
the book it then returns is the first one in sequence order with that id (the
catalog splits into books of other ids, the returned book, and a rest that may
hold further books of the id); when no book has the id it returns the
NOT_FOUND error and no book. -/
theorem Get_first_match (s : Store) (req : BookIdRequest) :
    ((∃ b, (service.Get req s).1 = .ok b) ↔ ∃ b ∈ s.booksList, b.Id = req.Id) ∧
    (∀ b, (service.Get req s).1 = .ok b →
      ∃ pre post, s.booksList = pre ++ b :: post ∧
        (∀ x ∈ pre, x.Id ≠ req.Id) ∧ b.Id = req.Id) ∧
    ((¬ ∃ b ∈ s.booksList, b.Id = req.Id) →
      (service.Get req s).1 = .error (status.Errorf codes.Code.NotFound "Not found")) := by
  by_cases h : ∃ b ∈ s.booksList, b.Id = req.Id
  · obtain ⟨pre, b, post, hs, hpre, hb⟩ := exists_first_match req.Id s.booksList h
    have hget := Get_found req s pre post b hs hpre hb
    refine ⟨⟨fun _ => h, fun _ => ⟨b, by rw [hget]⟩⟩, ?_, fun hn => absurd h hn⟩
    intro b2 hb2
    rw [hget] at hb2
    have hbb : b = b2 := by
      simp only [Except.ok.injEq] at hb2
      exact hb2
    subst hbb
    exact ⟨pre, post, hs, hpre, hb⟩
  · have hget := Get_absent req s (fun x hx hid => h ⟨x, hx, hid⟩)
    refine ⟨⟨?_, fun h2 => absurd h2 h⟩, ?_, fun _ => by rw [hget]; rfl⟩
    · rintro ⟨b, hb⟩
      rw [hget] at hb
      cases hb
    · intro b hb
      rw [hget] at hb
      cases hb

/-- C2: for an id that occurs in the catalog, `Delete(id)` succeeds and the
catalog after it is the old one without its first book of that id: the books
before it and the books after it are kept in their order, and the length drops
by exactly one. -/
theorem Delete_removes_first (s : Store) (req : BookIdRequest)
    (h : ∃ b ∈ s.booksList, b.Id = req.Id) :
    ∃ pre b post, s.booksList = pre ++ b :: post ∧
      (∀ x ∈ pre, x.Id ≠ req.Id) ∧ b.Id = req.Id ∧
      (service.Delete req s).1 = .ok {} ∧
      (service.Delete req s).2.booksList = pre ++ post ∧
      (service.Delete req s).2.booksList.length + 1 = s.booksList.length := by
  obtain ⟨pre, b, post, hs, hpre, hb⟩ := exists_first_match req.Id s.booksList h
  refine ⟨pre, b, post, hs, hpre, hb, ?_, ?_, ?_⟩
  · rw [Delete_found req s pre post b hs hpre hb]
  · rw [Delete_found req s pre post b hs hpre hb]
  · rw [Delete_found req s pre post b hs hpre hb, hs]
    simp only [List.length_append, List.length_cons]
    omega

/-- The theorem `Delete_removes_first` on a catalog of three books, two of
which carry the id. -/
theorem Delete_removes_first_witness :
    (∃ b ∈ (Store.mk [⟨1, "a", "x"⟩, ⟨2, "b", "y"⟩, ⟨2, "c", "z"⟩]).booksList,
        b.Id = (BookIdRequest.mk 2).Id) ∧
    ∃ pre b post,
      (Store.mk [⟨1, "a", "x"⟩, ⟨2, "b", "y"⟩, ⟨2, "c", "z"⟩]).booksList = pre ++ b :: post ∧
      (∀ x ∈ pre, x.Id ≠ (BookIdRequest.mk 2).Id) ∧ b.Id = (BookIdRequest.mk 2).Id ∧
      (service.Delete ⟨2⟩ ⟨[⟨1, "a", "x"⟩, ⟨2, "b", "y"⟩, ⟨2, "c", "z"⟩]⟩).1 = .ok {} ∧
      (service.Delete ⟨2⟩ ⟨[⟨1, "a", "x"⟩, ⟨2, "b", "y"⟩, ⟨2, "c", "z"⟩]⟩).2.booksList
        = pre ++ post ∧
      (service.Delete ⟨2⟩ ⟨[⟨1, "a", "x"⟩, ⟨2, "b", "y"⟩, ⟨2, "c", "z"⟩]⟩).2.booksList.length + 1
        = (Store.mk [⟨1, "a", "x"⟩, ⟨2, "b", "y"⟩, ⟨2, "c", "z"⟩]).booksList.length :=
  ⟨⟨⟨2, "b", "y"⟩, by simp, rfl⟩,
   Delete_removes_first ⟨[⟨1, "a", "x"⟩, ⟨2, "b", "y"⟩, ⟨2, "c", "z"⟩]⟩ ⟨2⟩
     ⟨⟨2, "b", "y"⟩, by simp, rfl⟩⟩

/-- C3: for an id that no book of the catalog carries, `Delete(id)` returns the
NOT_FOUND error and the catalog after the call is the catalog before it. -/
theorem Delete_absent_unchanged (s : Store) (req : BookIdRequest)
    (h : ∀ b ∈ s.booksList, b.Id ≠ req.Id) :
    (service.Delete req s).1 = .error (status.Errorf codes.Code.NotFound "Not found") ∧
    (service.Delete req s).2 = s := by
  rw [Delete_absent req s h]
  exact ⟨rfl, rfl⟩

/-- The theorem `Delete_absent_unchanged` on the initial catalog and the
id 7. -/
theorem Delete_absent_unchanged_witness :
    (∀ b ∈ initial.booksList, b.Id ≠ (BookIdRequest.mk 7).Id) ∧
    (service.Delete ⟨7⟩ initial).1
      = .error (status.Errorf codes.Code.NotFound "Not found") ∧
    (service.Delete ⟨7⟩ initial).2 = initial :=
  ⟨by simp [initial, booksList],
   Delete_absent_unchanged initial ⟨7⟩ (by simp [initial, booksList])⟩

/-- C4: `Insert(book)` never fails, and a `List` call right after it succeeds
and returns the previous catalog followed by the book as last entry, whatever
the ids already present. -/
theorem Insert_then_List (s : Store) (book : Book) :
    (service.Insert book s).1 = .ok {} ∧
    (service.List (service.Insert book s).2).1
      = .ok { Books := s.booksList ++ [book] } :=
  ⟨rfl, rfl⟩

/-- C5: for a book whose id does not occur in the catalog, `Insert(book)`
followed by `Get(book.id)` succeeds and returns that book, with the same id,
title and author. -/
theorem Insert_then_Get (s : Store) (book : Book)
    (h : ∀ x ∈ s.booksList, x.Id ≠ book.Id) :
    (service.Get ⟨book.Id⟩ (service.Insert book s).2).1 = .ok book := by
  rw [Get_found ⟨book.Id⟩ (service.Insert book s).2 s.booksList [] book rfl h rfl]

/-- The theorem `Insert_then_Get` on the initial catalog and a book of
id 7. -/
theorem Insert_then_Get_witness :
    (∀ x ∈ initial.booksList, x.Id ≠ (Book.mk 7 "Emma" "Jane Austen").Id) ∧
    (service.Get ⟨(Book.mk 7 "Emma" "Jane Austen").Id⟩
      (service.Insert ⟨7, "Emma", "Jane Austen"⟩ initial).2).1
      = .ok ⟨7, "Emma", "Jane Austen"⟩ :=
  ⟨by simp [initial, booksList],
   Insert_then_Get initial ⟨7, "Emma", "Jane Austen"⟩ (by simp [initial, booksList])⟩

/-- C6, as stated, fails on a catalog with a duplicate id: after the call
`Insert` of a second book of id 123 on the initial catalog, `Delete(123)`
succeeds and the following `Get(123)` succeeds too, returning the second
book. -/
theorem Delete_then_Get_duplicate :
    (∃ b ∈ (run initial [.insert ⟨123, "Bleak House", "Charles Dickens"⟩]).booksList,
        b.Id = (BookIdRequest.mk 123).Id) ∧
    (service.Delete ⟨123⟩
        (run initial [.insert ⟨123, "Bleak House", "Charles Dickens"⟩])).1 = .ok {} ∧
    (service.Get ⟨123⟩ (service.Delete ⟨123⟩
        (run initial [.insert ⟨123, "Bleak House", "Charles Dickens"⟩])).2).1
      = .ok ⟨123, "Bleak House", "Charles Dickens"⟩ ∧
    (service.Get ⟨123⟩ (service.Delete ⟨123⟩
        (run initial [.insert ⟨123, "Bleak House", "Charles Dickens"⟩])).2).1
      ≠ .error (status.Errorf codes.Code.NotFound "Not found") := by
  have hrun : run initial [.insert ⟨123, "Bleak House", "Charles Dickens"⟩]
      = ⟨[⟨123, "A Tale of Two Cities", "Charles Dickens"⟩,
          ⟨123, "Bleak House", "Charles Dickens"⟩]⟩ := rfl
  have hdel := Delete_found ⟨123⟩
    ⟨[⟨123, "A Tale of Two Cities", "Charles Dickens"⟩,
      ⟨123, "Bleak House", "Charles Dickens"⟩]⟩
    [] [⟨123, "Bleak House", "Charles Dickens"⟩]
    ⟨123, "A Tale of Two Cities", "Charles Dickens"⟩ rfl (by simp) rfl
  have hget := Get_found ⟨123⟩ ⟨[⟨123, "Bleak House", "Charles Dickens"⟩]⟩
    [] [] ⟨123, "Bleak House", "Charles Dickens"⟩ rfl (by simp) rfl
  rw [hrun, hdel]
  refine ⟨⟨⟨123, "A Tale of Two Cities", "Charles Dickens"⟩, by simp, rfl⟩, rfl, ?_, ?_⟩
  · exact congrArg Prod.fst hget
  · rw [show ([] : List Book) ++ [⟨123, "Bleak House", "Charles Dickens"⟩]
        = [⟨123, "Bleak House", "Charles Dickens"⟩] from rfl, hget]
    intro hne
    cases hne

/-- C6, amended: for an id that occurs in the catalog, `Delete(id)` succeeds;
the following `Get(id)` fails with NOT_FOUND exactly when the id occurred once
in the catalog before the `Delete`; when it occurred more than once, the
following `Get(id)` succeeds and returns the second book of that id of the old
catalog, which is the first one of the catalog the `Delete` leaves. -/
theorem Delete_then_Get (s : Store) (req : BookIdRequest)
    (h : ∃ b ∈ s.booksList, b.Id = req.Id) :
    (service.Delete req s).1 = .ok {} ∧
    ((service.Get req (service.Delete req s).2).1
        = .error (status.Errorf codes.Code.NotFound "Not found")
      ↔ s.booksList.countP (fun b => decide (b.Id = req.Id)) = 1) ∧
    (s.booksList.countP (fun b => decide (b.Id = req.Id)) ≠ 1 →
      ∃ pre b mid b2 post,
        s.booksList = pre ++ b :: (mid ++ b2 :: post) ∧
        (∀ x ∈ pre, x.Id ≠ req.Id) ∧ b.Id = req.Id ∧
        (∀ x ∈ mid, x.Id ≠ req.Id) ∧ b2.Id = req.Id ∧
        (service.Delete req s).2.booksList = pre ++ (mid ++ b2 :: post) ∧
        (service.Get req (service.Delete req s).2).1 = .ok b2) := by
  obtain ⟨pre, b, post, hs, hpre, hb⟩ := exists_first_match req.Id s.booksList h
  rw [Delete_found req s pre post b hs hpre hb]
  have hiff := Get_notFound_iff req ⟨pre ++ post⟩
  have hnf : notFound = status.Errorf codes.Code.NotFound "Not found" := rfl
  rw [hnf] at hiff
  have hcpre : pre.countP (fun b => decide (b.Id = req.Id)) = 0 := by
    rw [List.countP_eq_zero]
    intro x hx
    simpa using hpre x hx
  have hcount : s.booksList.countP (fun b => decide (b.Id = req.Id))
      = post.countP (fun b => decide (b.Id = req.Id)) + 1 := by
    rw [hs, List.countP_append, hcpre, List.countP_cons_of_pos _ _ (by simpa using hb)]
    omega
  refine ⟨rfl, ?_, ?_⟩
  · rw [hiff, hcount]
    constructor
    · intro hall
      have hcpost : post.countP (fun b => decide (b.Id = req.Id)) = 0 := by
        rw [List.countP_eq_zero]
        intro x hx
        simpa using hall x (List.mem_append_right _ hx)
      omega
    · intro hc x hx
      have hcpost : post.countP (fun b => decide (b.Id = req.Id)) = 0 := by omega
      rw [List.countP_eq_zero] at hcpost
      rcases List.mem_append.1 hx with hx | hx
      · exact hpre x hx
      · simpa using hcpost x hx
  · intro hne
    have hpost : ∃ x ∈ post, x.Id = req.Id := by
      by_contra hno
      have hcpost : post.countP (fun b => decide (b.Id = req.Id)) = 0 := by
        rw [List.countP_eq_zero]
        intro x hx
        simpa using fun hid => hno ⟨x, hx, hid⟩
      omega
    obtain ⟨mid, b2, post2, hp, hmid, hb2⟩ := exists_first_match req.Id post hpost
    have hpm : ∀ x ∈ pre ++ mid, x.Id ≠ req.Id := by
      intro x hx
      rcases List.mem_append.1 hx with hx | hx
      · exact hpre x hx
      · exact hmid x hx
    have hget := Get_found req ⟨pre ++ post⟩ (pre ++ mid) post2 b2
      (by show pre ++ post = (pre ++ mid) ++ b2 :: post2; rw [hp]; simp) hpm hb2
    refine ⟨pre, b, mid, b2, post2, by rw [hs, hp], hpre, hb, hmid, hb2, by rw [hp], ?_⟩
    rw [hget]

/-- The theorem `Delete_then_Get` on a catalog of four books, two of which
carry the id 123, with a book of another id between them, so that the id
occurs more than once. -/
theorem Delete_then_Get_witness :
    (∃ b ∈ (Store.mk [⟨4, "Emma", "Jane Austen"⟩,
          ⟨123, "A Tale of Two Cities", "Charles Dickens"⟩,
          ⟨5, "Persuasion", "Jane Austen"⟩,
          ⟨123, "Bleak House", "Charles Dickens"⟩]).booksList,
        b.Id = (BookIdRequest.mk 123).Id) ∧
    (Store.mk [⟨4, "Emma", "Jane Austen"⟩,
          ⟨123, "A Tale of Two Cities", "Charles Dickens"⟩,
          ⟨5, "Persuasion", "Jane Austen"⟩,
          ⟨123, "Bleak House", "Charles Dickens"⟩]).booksList.countP
            (fun b => decide (b.Id = (BookIdRequest.mk 123).Id)) ≠ 1 ∧
    ((service.Delete ⟨123⟩ ⟨[⟨4, "Emma", "Jane Austen"⟩,
          ⟨123, "A Tale of Two Cities", "Charles Dickens"⟩,
          ⟨5, "Persuasion", "Jane Austen"⟩,
          ⟨123, "Bleak House", "Charles Dickens"⟩]⟩).1 = .ok {} ∧
    ((service.Get ⟨123⟩ (service.Delete ⟨123⟩ ⟨[⟨4, "Emma", "Jane Austen"⟩,
          ⟨123, "A Tale of Two Cities", "Charles Dickens"⟩,
          ⟨5, "Persuasion", "Jane Austen"⟩,
          ⟨123, "Bleak House", "Charles Dickens"⟩]⟩).2).1
        = .error (status.Errorf codes.Code.NotFound "Not found")
      ↔ (Store.mk [⟨4, "Emma", "Jane Austen"⟩,
          ⟨123, "A Tale of Two Cities", "Charles Dickens"⟩,
          ⟨5, "Persuasion", "Jane Austen"⟩,
          ⟨123, "Bleak House", "Charles Dickens"⟩]).booksList.countP
            (fun b => decide (b.Id = (BookIdRequest.mk 123).Id)) = 1) ∧
    ((Store.mk [⟨4, "Emma", "Jane Austen"⟩,
          ⟨123, "A Tale of Two Cities", "Charles Dickens"⟩,
          ⟨5, "Persuasion", "Jane Austen"⟩,
          ⟨123, "Bleak House", "Charles Dickens"⟩]).booksList.countP
            (fun b => decide (b.Id = (BookIdRequest.mk 123).Id)) ≠ 1 →
      ∃ pre b mid b2 post,
        (Store.mk [⟨4, "Emma", "Jane Austen"⟩,
          ⟨123, "A Tale of Two Cities", "Charles Dickens"⟩,
          ⟨5, "Persuasion", "Jane Austen"⟩,
          ⟨123, "Bleak House", "Charles Dickens"⟩]).booksList
          = pre ++ b :: (mid ++ b2 :: post) ∧
        (∀ x ∈ pre, x.Id ≠ (BookIdRequest.mk 123).Id) ∧ b.Id = (BookIdRequest.mk 123).Id ∧
        (∀ x ∈ mid, x.Id ≠ (BookIdRequest.mk 123).Id) ∧ b2.Id = (BookIdRequest.mk 123).Id ∧
        (service.Delete ⟨123⟩ ⟨[⟨4, "Emma", "Jane Austen"⟩,
          ⟨123, "A Tale of Two Cities", "Charles Dickens"⟩,
          ⟨5, "Persuasion", "Jane Austen"⟩,
          ⟨123, "Bleak House", "Charles Dickens"⟩]⟩).2.booksList
          = pre ++ (mid ++ b2 :: post) ∧
        (service.Get ⟨123⟩ (service.Delete ⟨123⟩ ⟨[⟨4, "Emma", "Jane Austen"⟩,
          ⟨123, "A Tale of Two Cities", "Charles Dickens"⟩,
          ⟨5, "Persuasion", "Jane Austen"⟩,
          ⟨123, "Bleak House", "Charles Dickens"⟩]⟩).2).1 = .ok b2)) :=
  ⟨⟨⟨123, "A Tale of Two Cities", "Charles Dickens"⟩, by simp, rfl⟩,
   by simp [List.countP_cons],
   Delete_then_Get
     ⟨[⟨4, "Emma", "Jane Austen"⟩,
       ⟨123, "A Tale of Two Cities", "Charles Dickens"⟩,
       ⟨5, "Persuasion", "Jane Austen"⟩,
       ⟨123, "Bleak House", "Charles Dickens"⟩]⟩
     ⟨123⟩
     ⟨⟨123, "A Tale of Two Cities", "Charles Dickens"⟩, by simp, rfl⟩⟩

/-- C7, as stated, fails when the id is already present: on the initial
catalog, `Insert` of a second book of id 123 followed by `Delete(123)` succeeds
and leaves a catalog that holds the new book alone, not the seeded one. -/
theorem Insert_then_Delete_duplicate :
    (service.Delete ⟨(Book.mk 123 "Bleak House" "Charles Dickens").Id⟩
        (service.Insert ⟨123, "Bleak House", "Charles Dickens"⟩ initial).2).1 = .ok {} ∧
    (service.Delete ⟨(Book.mk 123 "Bleak House" "Charles Dickens").Id⟩
        (service.Insert ⟨123, "Bleak House", "Charles Dickens"⟩ initial).2).2.booksList
      = [⟨123, "Bleak House", "Charles Dickens"⟩] ∧
    (service.Delete ⟨(Book.mk 123 "Bleak House" "Charles Dickens").Id⟩
        (service.Insert ⟨123, "Bleak House", "Charles Dickens"⟩ initial).2).2.booksList
      ≠ initial.booksList := by
  have hdel := Delete_found ⟨123⟩
    (service.Insert ⟨123, "Bleak House", "Charles Dickens"⟩ initial).2
    [] [⟨123, "Bleak House", "Charles Dickens"⟩]
    ⟨123, "A Tale of Two Cities", "Charles Dickens"⟩ rfl (by simp) rfl
  rw [hdel]
  refine ⟨rfl, rfl, ?_⟩
  simp [initial, booksList]

/-- C7, amended: `Insert(book)` followed immediately by `Delete(book.id)`
always succeeds; when the id of the book does not occur in the catalog, the
catalog after the two calls is the catalog before the `Insert`; when it does
occur, the catalog after the two calls is the old one without its first book
of that id and with the new book at the end. -/
theorem Insert_then_Delete (s : Store) (book : Book) :
    (service.Delete ⟨book.Id⟩ (service.Insert book s).2).1 = .ok {} ∧
    ((∀ x ∈ s.booksList, x.Id ≠ book.Id) →
      (service.Delete ⟨book.Id⟩ (service.Insert book s).2).2 = s) ∧
    (∀ pre b post, s.booksList = pre ++ b :: post →
      (∀ x ∈ pre, x.Id ≠ book.Id) → b.Id = book.Id →
      (service.Delete ⟨book.Id⟩ (service.Insert book s).2).2.booksList
        = pre ++ post ++ [book]) := by
  have hsplit : ∀ pre b post, s.booksList = pre ++ b :: post →
      (∀ x ∈ pre, x.Id ≠ book.Id) → b.Id = book.Id →
      service.Delete ⟨book.Id⟩ (service.Insert book s).2
        = (.ok {}, ⟨pre ++ (post ++ [book])⟩) := by
    intro pre b post hs hpre hb
    exact Delete_found ⟨book.Id⟩ (service.Insert book s).2 pre (post ++ [book]) b
      (by show s.booksList ++ [book] = pre ++ b :: (post ++ [book]); rw [hs]; simp) hpre hb
  have hnew : (∀ x ∈ s.booksList, x.Id ≠ book.Id) →
      service.Delete ⟨book.Id⟩ (service.Insert book s).2 = (.ok {}, ⟨s.booksList ++ []⟩) :=
    fun habs =>
      Delete_found ⟨book.Id⟩ (service.Insert book s).2 s.booksList [] book rfl habs rfl
  refine ⟨?_, ?_, ?_⟩
  · by_cases h : ∃ b ∈ s.booksList, b.Id = book.Id
    · obtain ⟨pre, b, post, hs, hpre, hb⟩ := exists_first_match book.Id s.booksList h
      rw [hsplit pre b post hs hpre hb]
    · rw [hnew (fun x hx hid => h ⟨x, hx, hid⟩)]
  · intro habs
    rw [hnew habs]
    simp
  · intro pre b post hs hpre hb
    rw [hsplit pre b post hs hpre hb]
    simp

/-- C8, as stated, fails at the seeded id: on the freshly started service,
after the empty sequence of calls (which has no `Insert` call at all),
`Get(123)` succeeds and returns the seeded book. -/
theorem Get_seed_never_inserted :
    (∀ b, Call.insert b ∈ ([] : List Call) → b.Id ≠ 123) ∧
    (service.Get ⟨123⟩ (run initial [])).1
      = .ok ⟨123, "A Tale of Two Cities", "Charles Dickens"⟩ ∧
    (service.Get ⟨123⟩ (run initial [])).1
      ≠ .error (status.Errorf codes.Code.NotFound "Not found") := by
  have hget := Get_found ⟨123⟩ (run initial []) [] []
    ⟨123, "A Tale of Two Cities", "Charles Dickens"⟩ rfl (by simp) rfl
  rw [hget]
  refine ⟨by simp, rfl, ?_⟩
  intro hne
  cases hne

/-- C8, amended: for every id other than the seeded id 123 and every finite
sequence of `List`, `Insert`, `Get` and `Delete` calls run from the freshly
started service in which no `Insert` call carried a book with that id, a
following `Get(id)` fails with NOT_FOUND. -/
theorem Get_never_inserted (id : Int) (calls : List Call) (hseed : id ≠ 123)
    (hins : ∀ b, Call.insert b ∈ calls → b.Id ≠ id) :
    (service.Get ⟨id⟩ (run initial calls)).1
      = .error (status.Errorf codes.Code.NotFound "Not found") := by
  have habs : ∀ x ∈ (run initial calls).booksList, x.Id ≠ (BookIdRequest.mk id).Id := by
    intro x hx
    rcases run_origin calls initial x hx with h | h
    · have hx2 : x = ⟨123, "A Tale of Two Cities", "Charles Dickens"⟩ := by
        simpa [initial, booksList] using h
      subst hx2
      exact fun heq => hseed heq.symm
    · exact hins x h
  rw [Get_absent ⟨id⟩ (run initial calls) habs]
  rfl

/-- The theorem `Get_never_inserted` on the id 7 and a sequence of five
calls. -/
theorem Get_never_inserted_witness :
    (7 : Int) ≠ 123 ∧
    (∀ b, Call.insert b ∈
        [Call.list, .insert ⟨5, "Emma", "Jane Austen"⟩, .get ⟨5⟩, .delete ⟨123⟩, .delete ⟨7⟩] →
      b.Id ≠ 7) ∧
    (service.Get ⟨7⟩ (run initial
        [Call.list, .insert ⟨5, "Emma", "Jane Austen"⟩, .get ⟨5⟩, .delete ⟨123⟩, .delete ⟨7⟩])).1
      = .error (status.Errorf codes.Code.NotFound "Not found") :=
  ⟨by decide,
   by
    intro b hb
    simp only [List.mem_cons, List.mem_singleton, Call.insert.injEq, reduceCtorEq, false_or,
      or_false, List.not_mem_nil] at hb
    subst hb
    decide,
   Get_never_inserted 7
     [Call.list, .insert ⟨5, "Emma", "Jane Austen"⟩, .get ⟨5⟩, .delete ⟨123⟩, .delete ⟨7⟩]
     (by decide)
     (by
      intro b hb
      simp only [List.mem_cons, List.mem_singleton, Call.insert.injEq, reduceCtorEq, false_or,
        or_false, List.not_mem_nil] at hb
      subst hb
      decide)⟩

/-- C9: on the initial state, in the step-1 and in the step-3 program, `List`
succeeds and returns exactly one book, of id 123, title "A Tale of Two Cities"
and author "Charles Dickens"; the results of the two programs are equal. -/
theorem List_initial :
    (Step1.service.List Step1.initial).1
      = .ok { Books := [⟨123, "A Tale of Two Cities", "Charles Dickens"⟩] } ∧
    (service.List initial).1
      = .ok { Books := [⟨123, "A Tale of Two Cities", "Charles Dickens"⟩] } ∧
    (Step1.service.List Step1.initial).1 = (service.List initial).1 :=
  ⟨rfl, rfl, rfl⟩

/-- C10: `List` and `Get`, whether `Get` succeeds or fails with NOT_FOUND,
leave the catalog as it was, so a repeated call on the resulting state gives
the same result and state as the first one. -/
theorem List_Get_frame (s : Store) (req : BookIdRequest) :
    (service.List s).2 = s ∧
    (service.Get req s).2 = s ∧
    service.List (service.List s).2 = service.List s ∧
    service.Get req (service.Get req s).2 = service.Get req s := by
  have hget := Get_store req s
  exact ⟨rfl, hget, rfl, by rw [hget]⟩

end Step3

end GrpcWorkshop
